import Mathlib

/-!
Verification of the bzComplexityAnalyzer core
(src/bzComplexityAnalyzer/bzComplexityAnalysis.py).

The program scores how well a string compresses relative to an empirically
built baseline for its length: it builds, per length, the mean compressed
length of homogeneous sequences (the compression floor), and the mean and
sample standard deviation of compressed lengths of random sequences of that
length (adjusted by the floor), then converts a proband string to a z-score
or percentile against that baseline.

External collaborators are modelled abstractly, exactly as the spec scopes
them out of the core:
  - the byte compressor `bz2.compress` (only its output length is observed),
    as a function `bz : List Char -> Nat` on the encoded, possibly
    case-folded, character sequence;
  - the seedable pseudo-random generator of the `random` module, as a state
    type `S` with a `seed` operation and a bounded index draw
    (`random.choice(seq)` draws a uniform index below `len(seq)`);
  - the floating-point square root used inside `statistics.stdev`, as a
    function `sqrtQ`;
  - `statistics.NormalDist.cdf`, as a function `cdf` of mean, standard
    deviation and argument.
Python arithmetic on exact fractions / floats is modelled over `Rat`.
-/

/-- Mean of a list of rationals: `statistics.mean` computes exactly
`sum / n` (the source only applies it to non-empty lists). -/
def listMean (l : List ℚ) : ℚ := l.sum / (l.length : ℚ)

/-- Unbiased sample variance, the quantity `statistics.stdev` takes the
square root of: sum of squared deviations from the mean divided by `n - 1`
(the source only applies it to lists of at least two elements). -/
def sampleVariance (l : List ℚ) : ℚ :=
  (l.map (fun x => (x - listMean l) ^ 2)).sum / ((l.length : ℚ) - 1)

/-- The state and operations of the pseudo-random generator (the `random`
module): `seed n` resets the state deterministically from `n`
(`random.seed(n)`), and `randIndex s n` draws a uniform index below `n`
together with the successor state (the index draw inside
`random.choice`). -/
structure RNG (S : Type) where
  seed : ℕ → S
  randIndex : S → ℕ → ℕ × S
  index_lt : ∀ s n, 0 < n → (randIndex s n).1 < n

/-- The bundle of external collaborators the analyzer calls into. -/
structure Externals (S : Type) where
  bz : List Char → ℕ
  rng : RNG S
  sqrtQ : ℚ → ℚ
  cdf : ℚ → ℚ → ℚ → ℚ

/-- Square root of the sample variance: `statistics.stdev`, with the
external floating-point square root left abstract. -/
def stdevQ {S : Type} (ext : Externals S) (l : List ℚ) : ℚ :=
  ext.sqrtQ (sampleVariance l)

/-- The normal-distribution object `statistics.NormalDist(mu, sigma)`:
only its parameters are stored; its `cdf` is external. -/
structure NormalDist where
  mu : ℚ
  sigma : ℚ
deriving Repr, DecidableEq

/-- Evaluation of the external cdf at a `NormalDist` object. -/
def NormalDist.cdfAt {S : Type} (ext : Externals S) (nd : NormalDist) (x : ℚ) : ℚ :=
  ext.cdf nd.mu nd.sigma x

/-- Runtime errors the scoring path can raise: Python raises
`ZeroDivisionError` on division by a zero float, and a dictionary lookup of
a missing key raises `KeyError`. -/
inductive RunError where
  | zeroDivision
  | keyError
deriving Repr, DecidableEq

/-- The per-length baseline record, dataclass `SequenceCompressionData`:
length, compression floor, and mean / standard deviation of the adjusted
compressed lengths of random sequences, plus the normal-distribution object
installed by `__post_init__`. -/
structure SequenceCompressionData where
  length : ℕ
  averageMinimumCompressedLength : ℚ
  average : ℚ
  standardDeviation : ℚ
  distribution : NormalDist
deriving Repr, DecidableEq

/-- Dataclass construction followed by `__post_init__`, which sets
`_distribution = statistics.NormalDist(average, standardDeviation)`. -/
def mkSequenceCompressionData (length : ℕ) (averageMinimumCompressedLength average standardDeviation : ℚ) :
    SequenceCompressionData :=
  ⟨length, averageMinimumCompressedLength, average, standardDeviation,
    ⟨average, standardDeviation⟩⟩

/-- Method `SequenceCompressionData.compressionZScore`: subtracts the floor,
subtracts the mean, divides by the standard deviation.  Python float
division by `0.0` raises `ZeroDivisionError`, modelled by the error
branch. -/
def SequenceCompressionData.compressionZScore (d : SequenceCompressionData)
    (probandCompressionLength : ℚ) : Except RunError ℚ :=
  let adjustedCompressedLength := probandCompressionLength - d.averageMinimumCompressedLength
  let deviationFromAverage := adjustedCompressedLength - d.average
  if d.standardDeviation = 0 then .error .zeroDivision
  else .ok (deviationFromAverage / d.standardDeviation)

/-- Method `SequenceCompressionData.compressionPercentile`: subtracts the
floor and evaluates the stored distribution object at the adjusted
length. -/
def SequenceCompressionData.compressionPercentile {S : Type} (ext : Externals S)
    (d : SequenceCompressionData) (probandCompressionLength : ℚ) : ℚ :=
  let adjustedCompressedLength := probandCompressionLength - d.averageMinimumCompressedLength
  d.distribution.cdfAt ext adjustedCompressedLength

/-- The alphabet catalog, class `Alphabet`: holds the case flag and exposes
one method per named symbol set. -/
structure Alphabet where
  ignoreCase : Bool

/-- Method `Alphabet.dna`: `"ATGC"`, extended with the lowercase letters
when case is significant. -/
def Alphabet.dna (al : Alphabet) : List Char :=
  (if al.ignoreCase then "ATGC" else "ATGCatgc").toList

/-- Method `Alphabet.alpha`: the uppercase Latin letters, extended with the
lowercase letters when case is significant. -/
def Alphabet.alpha (al : Alphabet) : List Char :=
  (if al.ignoreCase then "ABCDEFGHIJKLMNOPQRSTUVWXYZ"
   else "ABCDEFGHIJKLMNOPQRSTUVWXYZabcdefghijklmnopqrstuvwxyz").toList

/-- Method `Alphabet.numeric`: the ten digits. -/
def Alphabet.numeric (_ : Alphabet) : List Char := "1234567890".toList

/-- Method `Alphabet.symbol`: the keyboard symbol characters of the
source, in source order. -/
def Alphabet.symbol (_ : Alphabet) : List Char :=
  "~!@#$%^&*()_+\x7b\x7d|:\"<>?`-=[]\\;\x27,./ ".toList

/-- Method `Alphabet.alphanumeric`: letters then digits. -/
def Alphabet.alphanumeric (al : Alphabet) : List Char :=
  al.alpha ++ al.numeric

/-- Method `Alphabet.alphanumericSymbol`: letters, digits, then symbols. -/
def Alphabet.alphanumericSymbol (al : Alphabet) : List Char :=
  al.alpha ++ al.numeric ++ al.symbol

/-- The dynamic value passed for the `iterations` keyword of
`Analyzer.__init__`: the source checks `type(iterations) == int`, so the
model distinguishes integers from non-integer numbers. -/
inductive PyNum where
  | pyInt (i : ℤ)
  | pyFloat (q : ℚ)
deriving Repr, DecidableEq

/-- The check of the first assertion: `type(iterations) == int and
iterations > 0`. -/
def PyNum.isPosInt : PyNum → Bool
  | .pyInt i => 0 < i
  | .pyFloat _ => false

/-- The integer value of the argument, read once the type check passed. -/
def PyNum.intVal : PyNum → ℤ
  | .pyInt i => i
  | .pyFloat _ => 0

/-- The dynamic value passed for the `alphabet` keyword of
`Analyzer.__init__`: a string (catalog name), a list, set or tuple of
symbols, or a value of any other type (with its Python truthiness). -/
inductive AlphabetSpec where
  | strSpec (s : String)
  | listSpec (l : List Char)
  | setSpec (l : List Char)
  | tupleSpec (l : List Char)
  | otherSpec (truthy : Bool)
deriving Repr, DecidableEq

/-- The lowercasing `alphabet.lower()` of the string dispatch, character
by character (the catalog names are ASCII, where Python `str.lower` agrees
with `Char.toLower`). -/
def strToLower (s : String) : String := ⟨s.data.map Char.toLower⟩

/-- Python truthiness of the alphabet argument, as tested by
`assert alphabet`: empty strings and empty collections are falsy. -/
def AlphabetSpec.truthy : AlphabetSpec → Bool
  | .strSpec s => !(s == "")
  | .listSpec l => !l.isEmpty
  | .setSpec l => !l.isEmpty
  | .tupleSpec l => !l.isEmpty
  | .otherSpec b => b

/-- Construction-time failures of `Analyzer.__init__`, named after the
taxonomy of the spec: `invalidConfiguration` is the `AssertionError` of the
iterations assert, `invalidAlphabet` covers the `AssertionError` of the
alphabet truthiness assert and the two `ValueError` branches, and
`lowIterationWarning` is the `Warning` raised (as a hard failure) when the
iteration count is below 10. -/
inductive InitError where
  | invalidConfiguration
  | invalidAlphabet
  | lowIterationWarning
deriving Repr, DecidableEq

/-- The analyzer state, class `Analyzer`: the per-length baseline cache
(the dictionary `self.baselines`), the iteration count, the case flag and
the resolved alphabet. -/
structure Analyzer where
  baselines : ℕ → Option SequenceCompressionData
  iterations : ℕ
  ignoreCase : Bool
  alphabet : List Char

/-- Constructor `Analyzer.__init__`, in source order: assert that
`iterations` is a positive integer, assert that `alphabet` is truthy, raise
a `Warning` when `iterations < 10`, then resolve the alphabet argument —
a list, set or tuple is taken as the symbol list, a string is lowercased
and matched against the catalog names (with `"keyboard"` as an alias of
`"alphanumericsymbol"`), and anything else is a `ValueError`. -/
def Analyzer.init (alphabet : AlphabetSpec) (ignoreCase : Bool) (iterations : PyNum) :
    Except InitError Analyzer :=
  if !iterations.isPosInt then .error .invalidConfiguration
  else if !alphabet.truthy then .error .invalidAlphabet
  else if iterations.intVal < 10 then .error .lowIterationWarning
  else
    match alphabet with
    | .listSpec l => .ok ⟨fun _ => none, iterations.intVal.toNat, ignoreCase, l⟩
    | .setSpec l => .ok ⟨fun _ => none, iterations.intVal.toNat, ignoreCase, l⟩
    | .tupleSpec l => .ok ⟨fun _ => none, iterations.intVal.toNat, ignoreCase, l⟩
    | .strSpec s =>
      let t := strToLower s
      if t = "dna" then
        .ok ⟨fun _ => none, iterations.intVal.toNat, ignoreCase, (Alphabet.mk ignoreCase).dna⟩
      else if t = "alpha" then
        .ok ⟨fun _ => none, iterations.intVal.toNat, ignoreCase, (Alphabet.mk ignoreCase).alpha⟩
      else if t = "numeric" then
        .ok ⟨fun _ => none, iterations.intVal.toNat, ignoreCase, (Alphabet.mk ignoreCase).numeric⟩
      else if t = "symbol" then
        .ok ⟨fun _ => none, iterations.intVal.toNat, ignoreCase, (Alphabet.mk ignoreCase).symbol⟩
      else if t = "alphanumeric" then
        .ok ⟨fun _ => none, iterations.intVal.toNat, ignoreCase, (Alphabet.mk ignoreCase).alphanumeric⟩
      else if t = "alphanumericsymbol" || t = "keyboard" then
        .ok ⟨fun _ => none, iterations.intVal.toNat, ignoreCase, (Alphabet.mk ignoreCase).alphanumericSymbol⟩
      else .error .invalidAlphabet
    | .otherSpec _ => .error .invalidAlphabet

/-- Method `Analyzer.getBzipByteLength`: upper-case the string when case is
ignored, encode it, and take the length of its compression — the encoding
and `bz2.compress` are merged into the external length function `bz`. -/
def Analyzer.getBzipByteLength {S : Type} (ext : Externals S) (a : Analyzer)
    (stringToCompress : List Char) : ℕ :=
  ext.bz (if a.ignoreCase then stringToCompress.map Char.toUpper else stringToCompress)

/-- Method `Analyzer.getAverageMinimumCompressedLength`: loop over the
alphabet appending the compressed length of the symbol repeated `length`
times, then take the mean. -/
def Analyzer.getAverageMinimumCompressedLength {S : Type} (ext : Externals S)
    (a : Analyzer) (length : ℕ) : ℚ :=
  let minimumCompressedLengths :=
    a.alphabet.foldl
      (fun acc letter => acc ++ [((a.getBzipByteLength ext (List.replicate length letter) : ℕ) : ℚ)])
      []
  listMean minimumCompressedLengths

/-- One call of `random.choice(seq)`: draw an index below `len(seq)` and
return that element (the source never reaches an empty sequence here; the
default is irrelevant). -/
def randomChoice {S : Type} (ext : Externals S) (l : List Char) (s : S) : Char × S :=
  let is := ext.rng.randIndex s l.length
  (l.getD is.1 'A', is.2)

/-- The comprehension `"".join([random.choice(self.alphabet) for j in
range(length)])`: draw `length` symbols left to right, threading the
generator state. -/
def randomJoin {S : Type} (ext : Externals S) (a : Analyzer) : ℕ → S → List Char × S
  | 0, s => ([], s)
  | n + 1, s =>
    let cs := randomChoice ext a.alphabet s
    let rest := randomJoin ext a n cs.2
    (cs.1 :: rest.1, rest.2)

/-- The sampling loop of `getAverageRandomCompressedLengthAndStandardDeviation`:
`iterations` times, draw a random sequence and append its compressed length
minus the floor. -/
def sampleLoop {S : Type} (ext : Externals S) (a : Analyzer) (length : ℕ) (amcl : ℚ) :
    ℕ → S → List ℚ × S
  | 0, s => ([], s)
  | n + 1, s =>
    let seq := randomJoin ext a length s
    let v := ((a.getBzipByteLength ext seq.1 : ℕ) : ℚ) - amcl
    let rest := sampleLoop ext a length amcl n seq.2
    (v :: rest.1, rest.2)

/-- Method `Analyzer.getAverageRandomCompressedLengthAndStandardDeviation`:
`if not iterations` replaces a missing or zero argument by
`self.iterations`, a missing floor is recomputed, then the sampling loop
runs and the mean and sample standard deviation of the collected adjusted
lengths are returned. -/
def Analyzer.getAverageRandomCompressedLengthAndStandardDeviation {S : Type}
    (ext : Externals S) (a : Analyzer) (length : ℕ)
    (averageMinimumCompressedLength : Option ℚ) (iterations : Option ℕ) (s : S) :
    (ℚ × ℚ) × S :=
  let iterations :=
    match iterations with
    | none => a.iterations
    | some k => if k = 0 then a.iterations else k
  let amcl :=
    match averageMinimumCompressedLength with
    | none => a.getAverageMinimumCompressedLength ext length
    | some v => v
  let r := sampleLoop ext a length amcl iterations s
  ((listMean r.1, stdevQ ext r.1), r.2)

/-- Method `Analyzer.addLengthToBaselineTable`: reseed the generator with
the length (`random.seed(length)`, discarding the previous state), compute
the floor and the noise statistics, build the `SequenceCompressionData`
record, store it in the cache, and return the three statistics. -/
def Analyzer.addLengthToBaselineTable {S : Type} (ext : Externals S) (a : Analyzer)
    (length : ℕ) (_ : S) : (Analyzer × S) × (ℚ × ℚ × ℚ) :=
  let s0 := ext.rng.seed length
  let amcl := a.getAverageMinimumCompressedLength ext length
  let r := a.getAverageRandomCompressedLengthAndStandardDeviation ext length (some amcl) none s0
  let record := mkSequenceCompressionData length amcl r.1.1 r.1.2
  let a1 : Analyzer :=
    ⟨fun n => if n = length then some record else a.baselines n,
      a.iterations, a.ignoreCase, a.alphabet⟩
  ((a1, r.2), (amcl, r.1.1, r.1.2))

/-- Method `Analyzer.getCompressionZScore`: build the baseline for the
proband length when the cache misses, then delegate to the cached record
with the compressed length of the proband.  The (unreachable) `KeyError`
of the dictionary lookup is kept as an explicit branch. -/
def Analyzer.getCompressionZScore {S : Type} (ext : Externals S) (a : Analyzer)
    (probandString : List Char) (s : S) : Except RunError ℚ × Analyzer × S :=
  let length := probandString.length
  let step : Analyzer × S :=
    match a.baselines length with
    | some _ => (a, s)
    | none => (a.addLengthToBaselineTable ext length s).1
  match step.1.baselines length with
  | some d =>
    (d.compressionZScore ((step.1.getBzipByteLength ext probandString : ℕ) : ℚ), step.1, step.2)
  | none => (.error .keyError, step.1, step.2)

/-- Method `Analyzer.getCompressionPercentile`: same caching pattern,
delegating to `compressionPercentile`. -/
def Analyzer.getCompressionPercentile {S : Type} (ext : Externals S) (a : Analyzer)
    (probandString : List Char) (s : S) : Except RunError ℚ × Analyzer × S :=
  let length := probandString.length
  let step : Analyzer × S :=
    match a.baselines length with
    | some _ => (a, s)
    | none => (a.addLengthToBaselineTable ext length s).1
  match step.1.baselines length with
  | some d =>
    (.ok (d.compressionPercentile ext ((step.1.getBzipByteLength ext probandString : ℕ) : ℚ)), step.1, step.2)
  | none => (.error .keyError, step.1, step.2)

/-- Specification-side view of the sampling phase: the list of
`iterations` random sequences drawn left to right from a generator state,
separated from the compression that the source interleaves with it. -/
def drawSequences {S : Type} (ext : Externals S) (a : Analyzer) (length : ℕ) :
    ℕ → S → List (List Char) × S
  | 0, s => ([], s)
  | n + 1, s =>
    let p := randomJoin ext a length s
    let rest := drawSequences ext a length n p.2
    (p.1 :: rest.1, rest.2)

/-- The catalog names recognized by the string dispatch of
`Analyzer.__init__` (after lowercasing). -/
def isRecognizedName (t : String) : Bool :=
  t == "dna" || t == "alpha" || t == "numeric" || t == "symbol" ||
  t == "alphanumeric" || t == "alphanumericsymbol" || t == "keyboard"

/-- Modelled from the spec: the condition under which the alphabet
specification is invalid — an empty collection or empty string, a string
that is not a recognized catalog name, or a value whose type is neither a
name nor a collection of symbols. -/
def isBadAlphabetSpec : AlphabetSpec → Bool
  | .strSpec s => s == "" || !(isRecognizedName (strToLower s))
  | .listSpec l => l.isEmpty
  | .setSpec l => l.isEmpty
  | .tupleSpec l => l.isEmpty
  | .otherSpec _ => true

/-- The six catalog entries as the spec names them. -/
inductive CatalogName where
  | nucleotide
  | alphabetic
  | numericName
  | symbolic
  | alphanumericName
  | alphanumericWithSymbols
deriving Repr, DecidableEq

/-- The argument string `Analyzer.__init__` accepts for each catalog entry
of the spec. -/
def CatalogName.codeString : CatalogName → String
  | .nucleotide => "dna"
  | .alphabetic => "alpha"
  | .numericName => "numeric"
  | .symbolic => "symbol"
  | .alphanumericName => "alphanumeric"
  | .alphanumericWithSymbols => "alphanumericsymbol"

/-- The symbol list each catalog entry resolves to, for a given case
flag. -/
def CatalogName.resolved (c : CatalogName) (ignoreCase : Bool) : List Char :=
  match c with
  | .nucleotide => (Alphabet.mk ignoreCase).dna
  | .alphabetic => (Alphabet.mk ignoreCase).alpha
  | .numericName => (Alphabet.mk ignoreCase).numeric
  | .symbolic => (Alphabet.mk ignoreCase).symbol
  | .alphanumericName => (Alphabet.mk ignoreCase).alphanumeric
  | .alphanumericWithSymbols => (Alphabet.mk ignoreCase).alphanumericSymbol

/-- Concrete instantiation of the external collaborators, used to witness
the hypothesis-bearing theorems: a length-based compressor stub, a trivial
single-state generator, the identity for the square root and a constant
cdf. -/
def witnessExternals : Externals Unit :=
  ⟨fun l => l.length + 14,
    ⟨fun _ => (), fun _ _ => (0, ()), fun _ n h => h⟩,
    fun q => q,
    fun _ _ _ => 0⟩

/-- Concrete analyzer with an empty cache, used by witnesses. -/
def witnessAnalyzer : Analyzer :=
  ⟨fun _ => none, 10, true, ['A', 'T', 'G', 'C']⟩

/-- Specification-side view of the adjusted lengths: compressed length of
each drawn sequence minus the compression floor. -/
def adjustedLengths {S : Type} (ext : Externals S) (a : Analyzer) (L : ℕ) : List ℚ :=
  ((drawSequences ext a L a.iterations (ext.rng.seed L)).1).map
    (fun q => ((a.getBzipByteLength ext q : ℕ) : ℚ) -
      a.getAverageMinimumCompressedLength ext L)

lemma foldl_append_singleton {α β : Type} (f : α → β) (l : List α) (acc : List β) :
    l.foldl (fun acc x => acc ++ [f x]) acc = acc ++ l.map f := by
  induction l generalizing acc with
  | nil => simp
  | cons a t ih => simp [ih]

lemma listMean_replicate (k : ℕ) (x : ℚ) (hk : k ≠ 0) :
    listMean (List.replicate k x) = x := by
  have hk' : (k : ℚ) ≠ 0 := Nat.cast_ne_zero.mpr hk
  simp [listMean, List.sum_replicate, nsmul_eq_mul]
  field_simp

lemma sampleVariance_replicate_zero (k : ℕ) :
    sampleVariance (List.replicate k (0 : ℚ)) = 0 := by
  simp [sampleVariance, listMean, List.sum_replicate, List.map_replicate]

/-- C1: for every baseline record with nonzero standard deviation and every
compressed length `c`, `compressionZScore` returns
`((c - averageMinimumCompressedLength) - average) / standardDeviation`, and
in particular it returns exactly `0` when `c` equals
`averageMinimumCompressedLength + average`. -/
theorem compressionZScore_formula (d : SequenceCompressionData) (c : ℚ)
    (hd : d.standardDeviation ≠ 0) :
    d.compressionZScore c =
      .ok (((c - d.averageMinimumCompressedLength) - d.average) / d.standardDeviation)
    ∧ (c = d.averageMinimumCompressedLength + d.average → d.compressionZScore c = .ok 0) := by
  constructor
  · simp [SequenceCompressionData.compressionZScore, hd]
  · intro hc
    subst hc
    have h0 : d.averageMinimumCompressedLength + d.average
        - d.averageMinimumCompressedLength - d.average = 0 := by ring
    simp [SequenceCompressionData.compressionZScore, hd, h0]

/-- Witness for C1 at the record built from `(1, 5, 0, 4)` and compressed
length `5 = 5 + 0`. -/
theorem compressionZScore_formula_witness :
    (mkSequenceCompressionData 1 5 0 4).standardDeviation ≠ 0
    ∧ (mkSequenceCompressionData 1 5 0 4).compressionZScore 5 =
        .ok ((((5 : ℚ) - 5) - 0) / 4)
    ∧ (mkSequenceCompressionData 1 5 0 4).compressionZScore 5 = .ok 0 :=
  ⟨by decide,
    (compressionZScore_formula (mkSequenceCompressionData 1 5 0 4) 5 (by decide)).1,
    (compressionZScore_formula (mkSequenceCompressionData 1 5 0 4) 5 (by decide)).2
      (by simp [mkSequenceCompressionData])⟩

/-- C3: for every length and non-empty alphabet,
`getAverageMinimumCompressedLength` is the arithmetic mean, over the
alphabet symbols, of the compressed byte length of the symbol repeated
`length` times, case-normalized before compression when configured. -/
theorem getAverageMinimumCompressedLength_mean {S : Type} (ext : Externals S)
    (a : Analyzer) (L : ℕ) (ha : a.alphabet ≠ []) :
    a.getAverageMinimumCompressedLength ext L =
      (a.alphabet.map (fun letter =>
        ((ext.bz (if a.ignoreCase then (List.replicate L letter).map Char.toUpper
                  else List.replicate L letter) : ℕ) : ℚ))).sum
        / (a.alphabet.length : ℚ) := by
  unfold Analyzer.getAverageMinimumCompressedLength
  rw [foldl_append_singleton]
  simp [listMean, Analyzer.getBzipByteLength]

/-- Witness for C3 on the DNA analyzer at length 3. -/
theorem getAverageMinimumCompressedLength_mean_witness :
    witnessAnalyzer.alphabet ≠ [] ∧
    witnessAnalyzer.getAverageMinimumCompressedLength witnessExternals 3 =
      (witnessAnalyzer.alphabet.map (fun letter =>
        ((witnessExternals.bz (if witnessAnalyzer.ignoreCase
                  then (List.replicate 3 letter).map Char.toUpper
                  else List.replicate 3 letter) : ℕ) : ℚ))).sum
        / (witnessAnalyzer.alphabet.length : ℚ) :=
  ⟨by decide,
    getAverageMinimumCompressedLength_mean witnessExternals witnessAnalyzer 3 (by decide)⟩

/-- C4: for every baseline record (as built by the dataclass constructor
with its `__post_init__`) and every compressed length `c`,
`compressionPercentile` returns the external normal cdf with parameters
`(average, standardDeviation)` evaluated at
`c - averageMinimumCompressedLength`, with no clamping of the result — the
value is returned exactly as the cdf produces it, for every cdf. -/
theorem compressionPercentile_cdf {S : Type} (ext : Externals S) (L : ℕ)
    (amcl avg sd c : ℚ) :
    (mkSequenceCompressionData L amcl avg sd).compressionPercentile ext c
      = ext.cdf avg sd (c - amcl) := rfl

lemma getD_mem {l : List Char} (d : Char) : ∀ {i : ℕ}, i < l.length → l.getD i d ∈ l := by
  induction l with
  | nil => intro i h; simp at h
  | cons x t ih =>
    intro i h
    cases i with
    | zero => simp [List.getD]
    | succ j =>
      have : j < t.length := by simpa using h
      simpa [List.getD] using Or.inr (ih this)

lemma randomChoice_mem {S : Type} (ext : Externals S) (l : List Char) (s : S)
    (hl : l ≠ []) : (randomChoice ext l s).1 ∈ l := by
  have hpos : 0 < l.length := List.length_pos.mpr hl
  exact getD_mem 'A' (ext.rng.index_lt s l.length hpos)

lemma randomJoin_length {S : Type} (ext : Externals S) (a : Analyzer) :
    ∀ (L : ℕ) (s : S), ((randomJoin ext a L s).1).length = L := by
  intro L
  induction L with
  | zero => intro s; rfl
  | succ n ih => intro s; simp [randomJoin, ih]

lemma randomJoin_mem {S : Type} (ext : Externals S) (a : Analyzer)
    (ha : a.alphabet ≠ []) :
    ∀ (L : ℕ) (s : S) (c : Char), c ∈ (randomJoin ext a L s).1 → c ∈ a.alphabet := by
  intro L
  induction L with
  | zero => intro s c hc; simp [randomJoin] at hc
  | succ n ih =>
    intro s c hc
    simp only [randomJoin, List.mem_cons] at hc
    rcases hc with hc | hc
    · exact hc ▸ randomChoice_mem ext a.alphabet s ha
    · exact ih _ c hc

lemma drawSequences_length {S : Type} (ext : Externals S) (a : Analyzer) (L : ℕ) :
    ∀ (n : ℕ) (s : S), ((drawSequences ext a L n s).1).length = n := by
  intro n
  induction n with
  | zero => intro s; rfl
  | succ k ih => intro s; simp [drawSequences, ih]

lemma drawSequences_mem {S : Type} (ext : Externals S) (a : Analyzer) (L : ℕ) :
    ∀ (n : ℕ) (s : S) (q : List Char), q ∈ (drawSequences ext a L n s).1 →
      q = (randomJoin ext a L (drawSequences ext a L n s).2).1 ∨
      q.length = L := by
  intro n
  induction n with
  | zero => intro s q hq; simp [drawSequences] at hq
  | succ k ih =>
    intro s q hq
    simp only [drawSequences, List.mem_cons] at hq
    rcases hq with hq | hq
    · right; rw [hq]; exact randomJoin_length ext a L s
    · rcases ih _ q hq with h | h
      · right; rw [h]; exact randomJoin_length ext a L _
      · right; exact h

lemma drawSequences_shape {S : Type} (ext : Externals S) (a : Analyzer) (L : ℕ)
    (ha : a.alphabet ≠ []) :
    ∀ (n : ℕ) (s : S) (q : List Char), q ∈ (drawSequences ext a L n s).1 →
      q.length = L ∧ ∀ c ∈ q, c ∈ a.alphabet := by
  intro n
  induction n with
  | zero => intro s q hq; simp [drawSequences] at hq
  | succ k ih =>
    intro s q hq
    simp only [drawSequences, List.mem_cons] at hq
    rcases hq with hq | hq
    · subst hq
      exact ⟨randomJoin_length ext a L s, fun c hc => randomJoin_mem ext a ha L s c hc⟩
    · exact ih _ q hq

lemma sampleLoop_eq_map {S : Type} (ext : Externals S) (a : Analyzer) (L : ℕ) (amcl : ℚ) :
    ∀ (n : ℕ) (s : S),
      sampleLoop ext a L amcl n s =
        (((drawSequences ext a L n s).1).map
            (fun q => ((a.getBzipByteLength ext q : ℕ) : ℚ) - amcl),
          (drawSequences ext a L n s).2) := by
  intro n
  induction n with
  | zero => intro s; rfl
  | succ k ih => intro s; simp [sampleLoop, drawSequences, ih]

/-- C2: `addLengthToBaselineTable` seeds the generator with the length,
draws `iterations` sequences of `length` symbols from the alphabet
(uniformity of each draw being the external generator contract), compresses
each and subtracts the floor, and returns the floor together with the
sample mean and the unbiased, `n - 1` denominator, sample standard
deviation of the adjusted lengths. -/
theorem addLengthToBaselineTable_noise {S : Type} (ext : Externals S) (a : Analyzer)
    (L : ℕ) (s : S) (hn : 2 ≤ a.iterations) (ha : a.alphabet ≠ []) :
    (a.addLengthToBaselineTable ext L s).2 =
      (a.getAverageMinimumCompressedLength ext L,
        (adjustedLengths ext a L).sum / ((adjustedLengths ext a L).length : ℚ),
        ext.sqrtQ
          (((adjustedLengths ext a L).map
              (fun x => (x - (adjustedLengths ext a L).sum
                  / ((adjustedLengths ext a L).length : ℚ)) ^ 2)).sum
            / (((adjustedLengths ext a L).length : ℚ) - 1)))
    ∧ ((drawSequences ext a L a.iterations (ext.rng.seed L)).1).length = a.iterations
    ∧ ∀ q ∈ (drawSequences ext a L a.iterations (ext.rng.seed L)).1,
        q.length = L ∧ ∀ c ∈ q, c ∈ a.alphabet := by
  refine ⟨?_, drawSequences_length ext a L a.iterations (ext.rng.seed L),
    fun q hq => drawSequences_shape ext a L ha a.iterations (ext.rng.seed L) q hq⟩
  simp [Analyzer.addLengthToBaselineTable,
    Analyzer.getAverageRandomCompressedLengthAndStandardDeviation,
    sampleLoop_eq_map, adjustedLengths, listMean, stdevQ, sampleVariance]

/-- Witness for C2 on the DNA analyzer at length 2. -/
theorem addLengthToBaselineTable_noise_witness :
    2 ≤ witnessAnalyzer.iterations ∧ witnessAnalyzer.alphabet ≠ [] ∧
    ((witnessAnalyzer.addLengthToBaselineTable witnessExternals 2 ()).2 =
      (witnessAnalyzer.getAverageMinimumCompressedLength witnessExternals 2,
        (adjustedLengths witnessExternals witnessAnalyzer 2).sum
          / ((adjustedLengths witnessExternals witnessAnalyzer 2).length : ℚ),
        witnessExternals.sqrtQ
          (((adjustedLengths witnessExternals witnessAnalyzer 2).map
              (fun x => (x - (adjustedLengths witnessExternals witnessAnalyzer 2).sum
                  / ((adjustedLengths witnessExternals witnessAnalyzer 2).length : ℚ)) ^ 2)).sum
            / (((adjustedLengths witnessExternals witnessAnalyzer 2).length : ℚ) - 1)))
    ∧ ((drawSequences witnessExternals witnessAnalyzer 2 witnessAnalyzer.iterations
          (witnessExternals.rng.seed 2)).1).length = witnessAnalyzer.iterations) :=
  ⟨by decide, by decide,
    (addLengthToBaselineTable_noise witnessExternals witnessAnalyzer 2 ()
      (by decide) (by decide)).1,
    (addLengthToBaselineTable_noise witnessExternals witnessAnalyzer 2 ()
      (by decide) (by decide)).2.1⟩

lemma getAverageMinimumCompressedLength_congr {S : Type} (ext : Externals S)
    (b1 b2 : ℕ → Option SequenceCompressionData) (it1 it2 : ℕ) (ic : Bool)
    (al : List Char) (L : ℕ) :
    (Analyzer.mk b1 it1 ic al).getAverageMinimumCompressedLength ext L
      = (Analyzer.mk b2 it2 ic al).getAverageMinimumCompressedLength ext L := rfl

lemma randomJoin_congr {S : Type} (ext : Externals S)
    (b1 b2 : ℕ → Option SequenceCompressionData) (it1 it2 : ℕ) (ic : Bool)
    (al : List Char) :
    ∀ (L : ℕ) (s : S),
      randomJoin ext (Analyzer.mk b1 it1 ic al) L s
        = randomJoin ext (Analyzer.mk b2 it2 ic al) L s := by
  intro L
  induction L with
  | zero => intro s; rfl
  | succ n ih => intro s; simp [randomJoin, ih]

lemma sampleLoop_congr {S : Type} (ext : Externals S)
    (b1 b2 : ℕ → Option SequenceCompressionData) (it1 it2 : ℕ) (ic : Bool)
    (al : List Char) (L : ℕ) (amcl : ℚ) :
    ∀ (n : ℕ) (s : S),
      sampleLoop ext (Analyzer.mk b1 it1 ic al) L amcl n s
        = sampleLoop ext (Analyzer.mk b2 it2 ic al) L amcl n s := by
  intro n
  induction n with
  | zero => intro s; rfl
  | succ k ih =>
    intro s
    simp only [sampleLoop]
    rw [randomJoin_congr ext b1 b2 it1 it2 ic al L s, ih]
    rfl

lemma getAverageRandom_congr {S : Type} (ext : Externals S)
    (b1 b2 : ℕ → Option SequenceCompressionData) (it : ℕ) (ic : Bool)
    (al : List Char) (L : ℕ) (amclOpt : Option ℚ) (itOpt : Option ℕ) (s : S) :
    (Analyzer.mk b1 it ic al).getAverageRandomCompressedLengthAndStandardDeviation
        ext L amclOpt itOpt s
      = (Analyzer.mk b2 it ic al).getAverageRandomCompressedLengthAndStandardDeviation
        ext L amclOpt itOpt s := by
  unfold Analyzer.getAverageRandomCompressedLengthAndStandardDeviation
  cases amclOpt <;> cases itOpt <;>
    simp [sampleLoop_congr ext b1 b2 it it ic al,
      getAverageMinimumCompressedLength_congr ext b1 b2 it it ic al]

/-- C5: two baseline records built independently for the same alphabet,
iteration count and case flag — in particular with different cache contents
and different generator states before each build — are identical in all
fields, because `addLengthToBaselineTable` reseeds the generator with the
length before sampling and reads nothing else that differs. -/
theorem addLengthToBaselineTable_deterministic {S : Type} (ext : Externals S)
    (b1 b2 : ℕ → Option SequenceCompressionData) (it : ℕ) (ic : Bool)
    (al : List Char) (L : ℕ) (hL : 1 ≤ L) (s1 s2 : S) :
    ((Analyzer.mk b1 it ic al).addLengthToBaselineTable ext L s1).1.1.baselines L
      = ((Analyzer.mk b2 it ic al).addLengthToBaselineTable ext L s2).1.1.baselines L := by
  simp only [Analyzer.addLengthToBaselineTable]
  rw [getAverageRandom_congr ext b1 b2 it ic al,
    getAverageMinimumCompressedLength_congr ext b1 b2 it it ic al]
  simp

/-- Witness for C5 at length 1 with distinct initial caches. -/
theorem addLengthToBaselineTable_deterministic_witness :
    1 ≤ 1 ∧
    ((Analyzer.mk (fun _ => none) 10 true ['A', 'T']).addLengthToBaselineTable
        witnessExternals 1 ()).1.1.baselines 1
      = ((Analyzer.mk (fun _ => some (mkSequenceCompressionData 0 0 0 0)) 10 true
          ['A', 'T']).addLengthToBaselineTable witnessExternals 1 ()).1.1.baselines 1 :=
  ⟨le_refl 1,
    addLengthToBaselineTable_deterministic witnessExternals
      (fun _ => none) (fun _ => some (mkSequenceCompressionData 0 0 0 0))
      10 true ['A', 'T'] 1 (le_refl 1) () ()⟩

/-- C6: scoring the same proband twice with the same analyzer returns the
same value both times — the cache entry populated by the first call is
exactly the record the second call reuses. -/
theorem getCompressionZScore_idempotent {S : Type} (ext : Externals S)
    (a : Analyzer) (p : List Char) (s : S) :
    (a.getCompressionZScore ext p s).1 =
      (((a.getCompressionZScore ext p s).2.1).getCompressionZScore ext p
        ((a.getCompressionZScore ext p s).2.2)).1 := by
  cases h : a.baselines p.length with
  | some d => simp [Analyzer.getCompressionZScore, h]
  | none => simp [Analyzer.getCompressionZScore, h, Analyzer.addLengthToBaselineTable]

/-- C7: construction fails with the invalid-configuration error whenever
the iterations argument is not a positive integer — in particular at
iterations `0` — and construction with a positive iterations value below 10
never succeeds; both rejections happen in `Analyzer.init`, before any
analyzer exists to score with. -/
theorem analyzer_init_iterations_check (sp : AlphabetSpec) (ic : Bool) (it : PyNum) :
    (it.isPosInt = false → Analyzer.init sp ic it = .error .invalidConfiguration)
    ∧ Analyzer.init sp ic (.pyInt 0) = .error .invalidConfiguration
    ∧ (∀ i : ℤ, 0 < i → i < 10 → (Analyzer.init sp ic (.pyInt i)).isOk = false) := by
  refine ⟨?_, ?_, ?_⟩
  · intro h
    simp [Analyzer.init, h]
  · simp [Analyzer.init, PyNum.isPosInt]
  · intro i h1 h2
    by_cases htr : sp.truthy
    all_goals
      simp [Analyzer.init, PyNum.isPosInt, PyNum.intVal, h1, h2, htr, Except.isOk,
        Except.toBool]

/-- Witness for C7 at a non-integer argument, at zero, and at the
positive-but-small value 5. -/
theorem analyzer_init_iterations_check_witness :
    Analyzer.init (.strSpec "dna") true (.pyFloat 5) = .error .invalidConfiguration
    ∧ Analyzer.init (.strSpec "dna") true (.pyInt 0) = .error .invalidConfiguration
    ∧ (Analyzer.init (.strSpec "dna") true (.pyInt 5)).isOk = false :=
  ⟨(analyzer_init_iterations_check (.strSpec "dna") true (.pyFloat 5)).1 rfl,
    (analyzer_init_iterations_check (.strSpec "dna") true (.pyFloat 5)).2.1,
    (analyzer_init_iterations_check (.strSpec "dna") true (.pyFloat 5)).2.2 5
      (by decide) (by decide)⟩

/-- C9: each of the six catalog entries of the spec, requested through the
string `Analyzer.__init__` accepts for it, constructs successfully for
either case flag and resolves to the corresponding ordered, duplicate-free
symbol list. -/
theorem analyzer_init_catalog (c : CatalogName) (ic : Bool) :
    ∃ a : Analyzer,
      Analyzer.init (.strSpec c.codeString) ic (.pyInt 1000) = .ok a
      ∧ a.alphabet = c.resolved ic ∧ a.alphabet.Nodup := by
  cases c <;> cases ic <;> exact ⟨_, rfl, rfl, by decide⟩

/-- C8: with a valid iteration count, construction fails with the
invalid-alphabet error exactly when the alphabet specification is an empty
collection or empty string, a string that is not a recognized catalog name,
or a value of any other type; every other specification constructs
successfully. -/
theorem analyzer_init_alphabet_check (sp : AlphabetSpec) (ic : Bool) (i : ℤ)
    (hi : 10 ≤ i) :
    (Analyzer.init sp ic (.pyInt i) = .error .invalidAlphabet
        ↔ isBadAlphabetSpec sp = true)
    ∧ ((∃ a, Analyzer.init sp ic (.pyInt i) = .ok a)
        ↔ isBadAlphabetSpec sp = false) := by
  have h1 : (0 : ℤ) < i := by omega
  have h2 : ¬ i < 10 := by omega
  cases sp with
  | listSpec l =>
    cases l <;>
      simp [Analyzer.init, AlphabetSpec.truthy, isBadAlphabetSpec,
        PyNum.isPosInt, PyNum.intVal, h1, h2]
  | setSpec l =>
    cases l <;>
      simp [Analyzer.init, AlphabetSpec.truthy, isBadAlphabetSpec,
        PyNum.isPosInt, PyNum.intVal, h1, h2]
  | tupleSpec l =>
    cases l <;>
      simp [Analyzer.init, AlphabetSpec.truthy, isBadAlphabetSpec,
        PyNum.isPosInt, PyNum.intVal, h1, h2]
  | otherSpec b =>
    cases b <;>
      simp [Analyzer.init, AlphabetSpec.truthy, isBadAlphabetSpec,
        PyNum.isPosInt, PyNum.intVal, h1, h2]
  | strSpec s =>
    by_cases hs : s = ""
    · subst hs
      simp [Analyzer.init, AlphabetSpec.truthy, isBadAlphabetSpec,
        PyNum.isPosInt, PyNum.intVal, h1, h2]
    · by_cases hq1 : strToLower s = "dna"
      · simp [Analyzer.init, AlphabetSpec.truthy, isBadAlphabetSpec,
          isRecognizedName, PyNum.isPosInt, PyNum.intVal, h1, h2, hs, hq1]
      · by_cases hq2 : strToLower s = "alpha"
        · simp [Analyzer.init, AlphabetSpec.truthy, isBadAlphabetSpec,
            isRecognizedName, PyNum.isPosInt, PyNum.intVal, h1, h2, hs, hq1, hq2]
        · by_cases hq3 : strToLower s = "numeric"
          · simp [Analyzer.init, AlphabetSpec.truthy, isBadAlphabetSpec,
              isRecognizedName, PyNum.isPosInt, PyNum.intVal, h1, h2, hs, hq1, hq2, hq3]
          · by_cases hq4 : strToLower s = "symbol"
            · simp [Analyzer.init, AlphabetSpec.truthy, isBadAlphabetSpec,
                isRecognizedName, PyNum.isPosInt, PyNum.intVal, h1, h2, hs,
                hq1, hq2, hq3, hq4]
            · by_cases hq5 : strToLower s = "alphanumeric"
              · simp [Analyzer.init, AlphabetSpec.truthy, isBadAlphabetSpec,
                  isRecognizedName, PyNum.isPosInt, PyNum.intVal, h1, h2, hs,
                  hq1, hq2, hq3, hq4, hq5]
              · by_cases hq6 : strToLower s = "alphanumericsymbol"
                · simp [Analyzer.init, AlphabetSpec.truthy, isBadAlphabetSpec,
                    isRecognizedName, PyNum.isPosInt, PyNum.intVal, h1, h2, hs,
                    hq1, hq2, hq3, hq4, hq5, hq6]
                · by_cases hq7 : strToLower s = "keyboard"
                  · simp [Analyzer.init, AlphabetSpec.truthy, isBadAlphabetSpec,
                      isRecognizedName, PyNum.isPosInt, PyNum.intVal, h1, h2, hs,
                      hq1, hq2, hq3, hq4, hq5, hq6, hq7]
                  · simp [Analyzer.init, AlphabetSpec.truthy, isBadAlphabetSpec,
                      isRecognizedName, PyNum.isPosInt, PyNum.intVal, h1, h2, hs,
                      hq1, hq2, hq3, hq4, hq5, hq6, hq7]

/-- Witness for C8 at iteration count 100, a valid two-symbol list. -/
theorem analyzer_init_alphabet_check_witness :
    (10 : ℤ) ≤ 100 ∧
    (Analyzer.init (.listSpec ['A', 'B']) true (.pyInt 100) = .error .invalidAlphabet
      ↔ isBadAlphabetSpec (.listSpec ['A', 'B']) = true) :=
  ⟨by decide,
    (analyzer_init_alphabet_check (.listSpec ['A', 'B']) true 100 (by decide)).1⟩

lemma sampleLoop_length_zero {S : Type} (ext : Externals S) (a : Analyzer) (amcl : ℚ) :
    ∀ (n : ℕ) (s : S),
      sampleLoop ext a 0 amcl n s
        = (List.replicate n (((a.getBzipByteLength ext [] : ℕ) : ℚ) - amcl), s) := by
  intro n
  induction n with
  | zero => intro s; rfl
  | succ k ih => intro s; simp [sampleLoop, randomJoin, ih, List.replicate_succ]

lemma getAverageMinimumCompressedLength_zero {S : Type} (ext : Externals S)
    (a : Analyzer) (ha : a.alphabet ≠ []) :
    a.getAverageMinimumCompressedLength ext 0
      = ((a.getBzipByteLength ext [] : ℕ) : ℚ) := by
  unfold Analyzer.getAverageMinimumCompressedLength
  rw [foldl_append_singleton]
  have hmap : a.alphabet.map
        (fun letter => ((a.getBzipByteLength ext (List.replicate 0 letter) : ℕ) : ℚ))
      = List.replicate a.alphabet.length ((a.getBzipByteLength ext [] : ℕ) : ℚ) := by
    simp [List.map_const']
  rw [List.nil_append, hmap,
    listMean_replicate a.alphabet.length _
      (Nat.pos_iff_ne_zero.mp (List.length_pos.mpr ha))]

/-- C10: for an analyzer with a valid configuration (non-empty alphabet,
iteration floor satisfied) whose cache has no entry for length 0, scoring
the empty proband string fails with the division-by-zero runtime error —
there is no undefined-statistic guard: every length-0 random sequence is
the empty sequence, so the baseline standard deviation built for length 0
is exactly 0 and the z-score division is unguarded. -/
theorem getCompressionZScore_empty_proband {S : Type} (ext : Externals S)
    (a : Analyzer) (s : S) (hb : a.baselines 0 = none) (ha : a.alphabet ≠ [])
    (hi : 10 ≤ a.iterations) (hsq : ext.sqrtQ 0 = 0) :
    (a.addLengthToBaselineTable ext 0 s).2.2.2 = 0
    ∧ (a.getCompressionZScore ext [] s).1 = .error .zeroDivision := by
  have hloop : ∀ s0 : S,
      (sampleLoop ext a 0 (a.getAverageMinimumCompressedLength ext 0) a.iterations s0).1
        = List.replicate a.iterations 0 := by
    intro s0
    rw [sampleLoop_length_zero, getAverageMinimumCompressedLength_zero ext a ha]
    simp
  have hsd : stdevQ ext (List.replicate a.iterations (0 : ℚ)) = 0 := by
    rw [stdevQ, sampleVariance_replicate_zero, hsq]
  have hmain : (a.addLengthToBaselineTable ext 0 s).2.2.2 = 0 := by
    simp only [Analyzer.addLengthToBaselineTable,
      Analyzer.getAverageRandomCompressedLengthAndStandardDeviation]
    rw [hloop (ext.rng.seed 0)]
    exact hsd
  refine ⟨hmain, ?_⟩
  simp only [Analyzer.getCompressionZScore, List.length_nil, hb,
    Analyzer.addLengthToBaselineTable,
    Analyzer.getAverageRandomCompressedLengthAndStandardDeviation]
  rw [hloop (ext.rng.seed 0)]
  simp [mkSequenceCompressionData, SequenceCompressionData.compressionZScore, hsd]

/-- Witness for C10 on the DNA analyzer with the trivial generator. -/
theorem getCompressionZScore_empty_proband_witness :
    witnessAnalyzer.baselines 0 = none ∧ witnessAnalyzer.alphabet ≠ [] ∧
    10 ≤ witnessAnalyzer.iterations ∧ witnessExternals.sqrtQ 0 = 0 ∧
    ((witnessAnalyzer.addLengthToBaselineTable witnessExternals 0 ()).2.2.2 = 0
      ∧ (witnessAnalyzer.getCompressionZScore witnessExternals [] ()).1
          = .error .zeroDivision) :=
  ⟨rfl, by decide, by decide, rfl,
    getCompressionZScore_empty_proband witnessExternals witnessAnalyzer ()
      rfl (by decide) (by decide) rfl⟩
